import Mathlib

/-!
# Verification of the ai-form-fill field-fill pipeline

A shallow embedding of the value-reconciliation core of the `ai-form-fill`
repository: the value writer (`setFieldValue`), select / radio / checkbox /
date-time matching, the JSON response parser (`parseJsonResponse`), the
extraction-prompt builder (`buildParsePrompt`), the orchestrator
(`parseAndFillForm` of class `AIFormFill`) and provider construction
(`constructProviderWithName`).

The repository ships two generations of the code:
* the current generation: `src/lib/core/aiFormFill.ts`, `src/lib/utils/prompts.ts`
  and the first bundled module of `src/unnamed/part_008` (functions `F`, `S`,
  `g`, `L`, `D`, `N`, `T`, `R`, `I`, class `b`); embedded below in
  namespace `Dist`;
* an older generation: `src/lib/utils/fieldUtils.ts` and the second bundled
  module of `src/unnamed/part_008` / `src/unnamed/part_016`; the parts of it
  that claims quantify over are embedded in namespace `Lib` (its
  `setFieldValue`) and namespace `Old` (its `AIFormFill` constructor).

DOM events (`input` / `change` dispatches) are not modelled: the properties
below concern only `value` / `checked` state.  JavaScript strings are modelled
as Lean `String`; `String.toLower` / `String.trim` model `toLowerCase()` /
`trim()` on the ASCII inputs all claims range over.
-/

/-- ASCII lowercasing of one character. -/
def lowerChar (c : Char) : Char :=
  if 'A' ≤ c && c ≤ 'Z' then Char.ofNat (c.toNat + 32) else c

/-- JS `String.prototype.toLowerCase()` (ASCII range, which covers every
string the claims and the repository's own option/sentinel sets use). -/
def jsToLower (s : String) : String := String.mk (s.toList.map lowerChar)

/-- ASCII whitespace (the whitespace that occurs in the strings the claims
range over; JS also trims some Unicode space characters). -/
def wsChar (c : Char) : Bool :=
  c == ' ' || c == '\t' || c == '\n' || c == '\r' ||
    c == Char.ofNat 11 || c == Char.ofNat 12

/-- Drop leading whitespace. -/
def dropWsLeft (l : List Char) : List Char :=
  match l with
  | c :: rest => if wsChar c then dropWsLeft rest else l
  | [] => []

/-- JS `String.prototype.trim()`. -/
def jsTrim (s : String) : String :=
  String.mk (((dropWsLeft s.toList).reverse |> dropWsLeft).reverse)

/-- Whether `pat` occurs as a contiguous run inside `l`. -/
def charsInfix (pat l : List Char) : Bool :=
  match l with
  | [] => pat.isEmpty
  | _ :: rest => pat.isPrefixOf l || charsInfix pat rest

/-- JS `a.includes(b)`: substring test. -/
def jsIncludes (a b : String) : Bool := charsInfix b.toList a.toList

/-- JS truthiness of a string: non-empty. -/
def jsTruthy (s : String) : Bool := s ≠ ""

namespace Dist

/-- `F` in `src/unnamed/part_008` (first module): sentinel strings meaning
"no data".  Nine entries, including `"missing"`. -/
def NO_VALUES : List String :=
  ["null", "", "n/a", "none", "no value", "empty", "undefined", "unknown",
   "missing"]

/-- `x` in `src/unnamed/part_008`: values that check a checkbox. -/
def TRUTHY_VALUES : List String := ["true", "yes", "1", "checked", "on"]

/-- `S(o)` in `src/unnamed/part_008`: membership in the sentinel set. -/
def isNoValue (o : String) : Bool := NO_VALUES.contains o

end Dist

/-- One `<option>` of a select element: its `value` property and its `text`
(display text) property. -/
structure SelectOpt where
  value : String
  text : String
deriving Repr, DecidableEq

/-- One radio input of a radio group, as the writer sees it: its `value`
property, its resolved label (the output of `M` -- `<label for>` first, then
ancestor label, else `""`), and its `checked` state. -/
structure Radio where
  value : String
  label : String
  checked : Bool
deriving Repr, DecidableEq

/-- A form control as discriminated by the value writer
(`instanceof` plus the input `type` property):
* `inputEl ty value checked` -- an `HTMLInputElement` whose `type` is `ty`
  and which is none of checkbox / radio / date / datetime-local / time;
* `checkboxEl checked` -- an input with `type="checkbox"`;
* `radioEl hasFormAndName value group` -- an input with `type="radio"`;
  `hasFormAndName` models `closest("form")` finding a form and `name` being
  non-empty, and `group` is the document-ordered list of radios of the
  enclosing form sharing the `name` (`querySelectorAll` in `L`);
* `dateEl ty value` -- an input with `type` date / datetime-local / time;
* `textareaEl value` -- an `HTMLTextAreaElement`;
* `selectEl opts value` -- an `HTMLSelectElement` with its options list. -/
inductive Elem where
  | inputEl (ty : String) (value : String) (checked : Bool)
  | checkboxEl (checked : Bool)
  | radioEl (hasFormAndName : Bool) (value : String) (group : List Radio)
  | dateEl (ty : String) (value : String)
  | textareaEl (value : String)
  | selectEl (opts : List SelectOpt) (value : String)
deriving Repr, DecidableEq

namespace Dist

/-- `A(o, e)` in `src/unnamed/part_008`: checkbox write.  `e` is the
normalized value; `checked` becomes the truthy-set membership test. -/
def setCheckboxValue (e : String) : Bool := TRUTHY_VALUES.contains e

/-- The per-radio condition of `L` in `src/unnamed/part_008`: with
`a = i.value.toLowerCase()` and `n = M(i).toLowerCase()`, the radio matches
the normalized input `e` when
`a === e || n === e || a.includes(e) || n.includes(e) || e.includes(a) || e.includes(n)`.
Exact and substring tests are one single disjunction, checked radio by radio. -/
def radioMatches (e : String) (r : Radio) : Bool :=
  let a := jsToLower r.value
  let n := jsToLower r.label
  a == e || n == e || jsIncludes a e || jsIncludes n e ||
    jsIncludes e a || jsIncludes e n

/-- The loop of `L(o, e)`: walk the group in document order; the first radio
satisfying `radioMatches` gets `checked := true` and the loop breaks; all
other radios are untouched. -/
def setRadioGroup (group : List Radio) (e : String) : List Radio :=
  match group with
  | [] => []
  | r :: rest =>
      if radioMatches e r then { r with checked := true } :: rest
      else r :: setRadioGroup rest e

/-- Exact-match predicate of `D` in `src/unnamed/part_008`:
`i.value.toLowerCase() === e || i.text.toLowerCase() === e`. -/
def selectExact (e : String) (o : SelectOpt) : Bool :=
  jsToLower o.value == e || jsToLower o.text == e

/-- Substring predicate of `D`:
`i.value.toLowerCase().includes(e) || i.text.toLowerCase().includes(e) ||
 e.includes(i.value.toLowerCase()) || e.includes(i.text.toLowerCase())`. -/
def selectSub (e : String) (o : SelectOpt) : Bool :=
  jsIncludes (jsToLower o.value) e || jsIncludes (jsToLower o.text) e ||
    jsIncludes e (jsToLower o.value) || jsIncludes e (jsToLower o.text)

/-- The option chosen by `D(o, e, t)`: first exact match
(`Array.from(o.options).find`), else first substring match, else none. -/
def selectFind (opts : List SelectOpt) (e : String) : Option SelectOpt :=
  match opts.find? (selectExact e) with
  | some o => some o
  | none => opts.find? (selectSub e)

/-- The `D(o, e, t)` write itself: set `o.value` to the found option's
`value`, or leave the element unchanged (debug warning only). -/
def setSelectValue (opts : List SelectOpt) (cur : String) (e : String) :
    String :=
  match selectFind opts e with
  | some o => o.value
  | none => cur

end Dist

/-- The am/pm designator captured by the time regex of `T`
(case-insensitive). -/
inductive AmPm where
  | am
  | pm
deriving Repr, DecidableEq

/-- Result of matching `/(\d{1,2}):(\d{2})(?::(\d{2}))?(?:\s*(am|pm))?/i`:
the hour value (group 1, as a number), the two minute characters
(group 2, kept verbatim) and the optional am/pm designator (group 4). -/
structure TimeMatch where
  hour : Nat
  minutes : String
  ampm : Option AmPm
deriving Repr, DecidableEq

namespace Dist

/-- Decimal value of a digit character. -/
def digitVal (c : Char) : Nat := c.toNat - 48

/-- After the matched `H:MM[:SS]`, the optional `(?:\s*(am|pm))?` group:
skip `\s*`, then read `am` / `pm` case-insensitively; if neither follows,
the group matches nothing (group 4 undefined). -/
def matchAmPm (l : List Char) : Option AmPm :=
  match l with
  | c :: rest =>
      if wsChar c then matchAmPm rest
      else if (c == 'a' || c == 'A') then
        match rest with
        | m :: _ => if m == 'm' || m == 'M' then some AmPm.am else none
        | [] => none
      else if (c == 'p' || c == 'P') then
        match rest with
        | m :: _ => if m == 'm' || m == 'M' then some AmPm.pm else none
        | [] => none
      else none
  | [] => none

/-- After `H:MM`, the optional `(?::(\d{2}))?` group: consume `:` plus two
digits when present (the captured seconds are never used), then hand the
rest to the am/pm group. -/
def matchAfterMinutes (l : List Char) : Option AmPm :=
  match l with
  | c :: s1 :: s2 :: rest =>
      if c == ':' && s1.isDigit && s2.isDigit then matchAmPm rest
      else matchAmPm l
  | _ => matchAmPm l

/-- Attempt the time pattern at the current position.  `\d{1,2}` is greedy:
two digits are tried first, backtracking to one when `:` does not follow
(JS regex semantics). -/
def tryTimeAt (l : List Char) : Option TimeMatch :=
  match l with
  | d1 :: rest1 =>
      if d1.isDigit then
        let oneDigit : Option TimeMatch :=
          match rest1 with
          | c :: m1 :: m2 :: rest2 =>
              if c == ':' && m1.isDigit && m2.isDigit then
                some ⟨digitVal d1, String.mk [m1, m2],
                      matchAfterMinutes rest2⟩
              else none
          | _ => none
        match rest1 with
        | d2 :: c :: m1 :: m2 :: rest2 =>
            if d2.isDigit && c == ':' && m1.isDigit && m2.isDigit then
              some ⟨digitVal d1 * 10 + digitVal d2, String.mk [m1, m2],
                    matchAfterMinutes rest2⟩
            else oneDigit
        | _ => oneDigit
      else none
  | [] => none

/-- `r.match(...)`: the leftmost position where the pattern matches. -/
def findTimeMatch (l : List Char) : Option TimeMatch :=
  match l with
  | [] => none
  | _ :: rest =>
      match tryTimeAt l with
      | some m => some m
      | none => findTimeMatch rest

/-- The 12-to-24-hour conversion of `T`:
`f === "pm" && c < 12 && (c += 12), f === "am" && c === 12 && (c = 0)`. -/
def to24Hour (c : Nat) (f : Option AmPm) : Nat :=
  let c := if f == some AmPm.pm && c < 12 then c + 12 else c
  if f == some AmPm.am && c == 12 then 0 else c

/-- `c.toString().padStart(2, "0")`. -/
def pad2 (n : Nat) : String :=
  let s := toString n
  if s.length < 2 then "0" ++ s else s

/-- The `if (e === "time")` branch of `T(o, e)` in `src/unnamed/part_008`:
match the time pattern anywhere in the trimmed string; on a match return
`HH:MM` (hour converted to 24-hour form, minutes verbatim), else `null`.
(The date-parsing attempts `T` performs before this branch are dead code
for the `time` kind: the branch returns without consulting them.) -/
def normalizeTimeValue (o : String) : Option String :=
  let r := jsTrim o
  match findTimeMatch r.toList with
  | some m => some (pad2 (to24Hour m.hour m.ampm) ++ ":" ++ m.minutes)
  | none => none

/-- The non-`time` kinds of `T` parse the string as a date through
`new Date(...)` / `Date.parse` and the local time zone -- platform
behaviour external to the repository.  The orchestration-level claims never
depend on it, so it is kept as a parameter: the already-formatted result of
the date path (`null` when unparseable). -/
def normalizeDateValue (datePath : String → String → Option String)
    (o : String) (kind : String) : Option String :=
  if kind == "time" then normalizeTimeValue o else datePath o kind

/-- `N(o, e)`: write the normalized date/time value, or leave the input
unchanged (debug warning only) when normalization returns `null`. -/
def setDateValue (datePath : String → String → Option String)
    (ty : String) (cur : String) (e : String) : String :=
  match normalizeDateValue datePath e ty with
  | some t => t
  | none => cur

/-- `g(o, e)` in `src/unnamed/part_008` (exported as `setFieldValue`): the
current-generation value writer.  Normalizes the raw value, rejects
sentinels, then dispatches on the control kind.  Events are not modelled;
the returned element carries the new `value` / `checked` state. -/
def setFieldValue (datePath : String → String → Option String)
    (el : Elem) (e : String) : Elem :=
  let t := jsToLower (jsTrim e)
  if isNoValue t then el
  else
    match el with
    | Elem.checkboxEl _ => Elem.checkboxEl (setCheckboxValue t)
    | Elem.radioEl ok v group =>
        if ok then Elem.radioEl ok v (setRadioGroup group t)
        else Elem.radioEl ok v group
    | Elem.dateEl ty v => Elem.dateEl ty (setDateValue datePath ty v e)
    | Elem.inputEl ty _ ch => Elem.inputEl ty e ch
    | Elem.textareaEl _ => Elem.textareaEl e
    | Elem.selectEl opts v => Elem.selectEl opts (setSelectValue opts v t)

end Dist

namespace Lib

/-- The sentinel rejection of `setFieldValue` in
`src/lib/utils/fieldUtils.ts` (lines 136-144): eight sentinels -- the list
does not contain `"missing"`. -/
def NO_VALUES : List String :=
  ["null", "", "n/a", "none", "no value", "empty", "undefined", "unknown"]

/-- `setFieldValue(element, value)` in `src/lib/utils/fieldUtils.ts`: the
older-generation value writer.  It has no radio or date handling: a radio
or date input is a plain `HTMLInputElement` of non-checkbox type, so its
`value` is assigned verbatim. -/
def setFieldValue (el : Elem) (value : String) : Elem :=
  let normalizedValue := jsToLower (jsTrim value)
  if NO_VALUES.contains normalizedValue then el
  else
    match el with
    | Elem.checkboxEl _ =>
        Elem.checkboxEl (Dist.TRUTHY_VALUES.contains normalizedValue)
    | Elem.radioEl ok _ group => Elem.radioEl ok value group
    | Elem.dateEl ty _ => Elem.dateEl ty value
    | Elem.inputEl ty _ ch => Elem.inputEl ty value ch
    | Elem.textareaEl _ => Elem.textareaEl value
    | Elem.selectEl opts v =>
        Elem.selectEl opts (Dist.setSelectValue opts v normalizedValue)

end Lib

/-!
## The JSON response parser

`parseJsonResponse` (`R` in `src/unnamed/part_008`, also
`src/lib/utils/prompts.ts` lines 230-256) trims the response, strips
markdown code-fence markers, runs `JSON.parse`, and coerces every entry of
the result to a string via `String(...)`; any thrown error is caught and
the empty record returned.

`JSON.parse` and `String(...)` are platform functions; they are modelled
here with these deliberate simplifications, none of which the claims
depend on: numbers are kept as exact decimals (`m / 10^e`) rather than
IEEE-754 doubles, so re-printing does not round and never switches to
exponent notation; `\uXXXX` escapes that form lone surrogates map to
U+FFFD; object keys keep textual insertion order (JS orders integer-like
keys first).
-/

/-- A parsed JSON value.  A number is the exact decimal
`mant / 10 ^ frac`. -/
inductive JsValue where
  | nul
  | bool (b : Bool)
  | num (mant : Int) (frac : Nat)
  | str (s : String)
  | arr (elems : List JsValue)
  | obj (fields : List (String × JsValue))

/-- JSON insignificant whitespace. -/
def jsonWs (c : Char) : Bool :=
  c == ' ' || c == '\t' || c == '\n' || c == '\r'

/-- Skip JSON whitespace. -/
def skipWs (l : List Char) : List Char :=
  match l with
  | c :: rest => if jsonWs c then skipWs rest else l
  | [] => []

/-- Numeric value of a list of decimal digit characters. -/
def natOfDigits (l : List Char) : Nat :=
  l.foldl (fun acc c => acc * 10 + (c.toNat - 48)) 0

/-- Split off a maximal run of decimal digits. -/
def spanDigits (l : List Char) : List Char × List Char :=
  match l with
  | c :: rest =>
      if c.isDigit then
        let (ds, r) := spanDigits rest
        (c :: ds, r)
      else ([], l)
  | [] => ([], l)

/-- Value of a hex digit, if any. -/
def hexVal (c : Char) : Option Nat :=
  if c.isDigit then some (c.toNat - 48)
  else if 'a' ≤ c && c ≤ 'f' then some (c.toNat - 87)
  else if 'A' ≤ c && c ≤ 'F' then some (c.toNat - 55)
  else none

/-- Drop trailing decimal zeros from an exact decimal `m / 10^e`, so that
printing it matches the shortest decimal JS would print. -/
def normDecimal : Int → Nat → Int × Nat
  | m, 0 => (m, 0)
  | m, e + 1 => if m % 10 == 0 then normDecimal (m / 10) e else (m, e + 1)

/-- Build the number value from sign, integer digits, fraction digits and
exponent, as the exact decimal it denotes. -/
def mkJsNumber (neg : Bool) (intDs fracDs : List Char) (exp : Int) : JsValue :=
  let mag : Nat := natOfDigits intDs * 10 ^ fracDs.length + natOfDigits fracDs
  let signed : Int := if neg then -(mag : Int) else (mag : Int)
  let shift : Int := exp - fracDs.length
  if 0 ≤ shift then
    JsValue.num (signed * (10 : Int) ^ shift.toNat) 0
  else
    let (m, e) := normDecimal signed (-shift).toNat
    JsValue.num m e

/-- Parse a JSON number (RFC 8259 grammar: `-?(0|[1-9]\d*)(\.\d+)?([eE][+-]?\d+)?`),
returning the value and the rest of the input. -/
def parseJsonNumber (l : List Char) : Option (JsValue × List Char) :=
  let (neg, l1) :=
    match l with
    | c :: rest => if c == '-' then (true, rest) else (false, l)
    | [] => (false, l)
  match l1 with
  | c :: rest =>
      if !c.isDigit then none
      else
        -- leading zero must stand alone
        let (intDs, l2) :=
          if c == '0' then ([c], rest)
          else spanDigits l1
        match l2 with
        | d :: _ =>
            if d.isDigit then none   -- "01..." is a syntax error
            else
              -- optional fraction
              let fracStep : Option (List Char × List Char) :=
                match l2 with
                | p :: r2 =>
                    if p == '.' then
                      let (fds, r3) := spanDigits r2
                      if fds.isEmpty then none else some (fds, r3)
                    else some ([], l2)
                | [] => some ([], l2)
              match fracStep with
              | none => none
              | some (fracDs, l3) =>
                  -- optional exponent
                  let expStep : Option (Int × List Char) :=
                    match l3 with
                    | p :: r3 =>
                        if p == 'e' || p == 'E' then
                          let (eneg, r4) :=
                            match r3 with
                            | q :: r4' =>
                                if q == '-' then (true, r4')
                                else if q == '+' then (false, r4')
                                else (false, r3)
                            | [] => (false, r3)
                          let (eds, r5) := spanDigits r4
                          if eds.isEmpty then none
                          else
                            let ev : Int := natOfDigits eds
                            some (if eneg then -ev else ev, r5)
                        else some (0, l3)
                    | [] => some (0, l3)
                  match expStep with
                  | none => none
                  | some (exp, l4) =>
                      some (mkJsNumber neg intDs fracDs exp, l4)
        | [] =>
            -- bare integer at end of input
            some (mkJsNumber neg intDs [] 0, [])
  | [] => none

/-- Parse the body of a JSON string (the opening quote already consumed),
the decoded string and the rest after the closing quote. -/
def parseJsonStringBody : Nat → List Char → List Char →
    Option (String × List Char)
  | 0, _, _ => none
  | fuel + 1, l, acc =>
      match l with
      | [] => none
      | c :: rest =>
          if c == '"' then some (String.mk acc.reverse, rest)
          else if c == '\\' then
            match rest with
            | e :: rest2 =>
                if e == '"' || e == '\\' || e == '/' then
                  parseJsonStringBody fuel rest2 (e :: acc)
                else if e == 'b' then
                  parseJsonStringBody fuel rest2 (Char.ofNat 8 :: acc)
                else if e == 'f' then
                  parseJsonStringBody fuel rest2 (Char.ofNat 12 :: acc)
                else if e == 'n' then parseJsonStringBody fuel rest2 ('\n' :: acc)
                else if e == 'r' then parseJsonStringBody fuel rest2 ('\r' :: acc)
                else if e == 't' then parseJsonStringBody fuel rest2 ('\t' :: acc)
                else if e == 'u' then
                  match rest2 with
                  | h1 :: h2 :: h3 :: h4 :: rest3 =>
                      match hexVal h1, hexVal h2, hexVal h3, hexVal h4 with
                      | some a, some b, some c', some d =>
                          let n := ((a * 16 + b) * 16 + c') * 16 + d
                          if 0xD800 ≤ n && n ≤ 0xDBFF then
                            -- high surrogate: try to pair with a following escape
                            match rest3 with
                            | b1 :: b2 :: h5 :: h6 :: h7 :: h8 :: rest4 =>
                                if b1 == '\\' && b2 == 'u' then
                                  match hexVal h5, hexVal h6, hexVal h7, hexVal h8 with
                                  | some a2, some b2', some c2, some d2 =>
                                      let n2 := ((a2 * 16 + b2') * 16 + c2) * 16 + d2
                                      if 0xDC00 ≤ n2 && n2 ≤ 0xDFFF then
                                        let cp :=
                                          0x10000 + (n - 0xD800) * 0x400 + (n2 - 0xDC00)
                                        parseJsonStringBody fuel rest4 (Char.ofNat cp :: acc)
                                      else
                                        parseJsonStringBody fuel rest3
                                          (Char.ofNat 0xFFFD :: acc)
                                  | _, _, _, _ =>
                                      parseJsonStringBody fuel rest3
                                        (Char.ofNat 0xFFFD :: acc)
                                else
                                  parseJsonStringBody fuel rest3 (Char.ofNat 0xFFFD :: acc)
                            | _ => parseJsonStringBody fuel rest3 (Char.ofNat 0xFFFD :: acc)
                          else if 0xDC00 ≤ n && n ≤ 0xDFFF then
                            parseJsonStringBody fuel rest3 (Char.ofNat 0xFFFD :: acc)
                          else parseJsonStringBody fuel rest3 (Char.ofNat n :: acc)
                      | _, _, _, _ => none
                  | _ => none
                else none
            | [] => none
          else if c.toNat < 0x20 then none   -- raw control characters are invalid
          else parseJsonStringBody fuel rest (c :: acc)

/-- `result[key] = value` on a plain object: overwrite in place when the
key exists, else append (insertion order). -/
def recordSet (kvs : List (String × JsValue)) (k : String) (v : JsValue) :
    List (String × JsValue) :=
  match kvs with
  | [] => [(k, v)]
  | (k', v') :: rest =>
      if k' == k then (k', v) :: rest else (k', v') :: recordSet rest k v

mutual

/-- Parse one JSON value (fuelled recursion; the fuel provided by
`jsonParse` always suffices). -/
def parseJsonValue : Nat → List Char → Option (JsValue × List Char)
  | 0, _ => none
  | fuel + 1, l =>
      let l := skipWs l
      if "null".toList.isPrefixOf l then some (JsValue.nul, l.drop 4)
      else if "true".toList.isPrefixOf l then some (JsValue.bool true, l.drop 4)
      else if "false".toList.isPrefixOf l then some (JsValue.bool false, l.drop 5)
      else
        match l with
        | c :: rest =>
            if c == '"' then
              match parseJsonStringBody (rest.length + 1) rest [] with
              | some (s, r) => some (JsValue.str s, r)
              | none => none
            else if c == '[' then
              match skipWs rest with
              | d :: rest2 =>
                  if d == ']' then some (JsValue.arr [], rest2)
                  else
                    match parseJsonArrayItems fuel (skipWs rest) [] with
                    | some (xs, r) => some (JsValue.arr xs, r)
                    | none => none
              | [] => none
            else if c == Char.ofNat 123 then   -- opening brace
              match skipWs rest with
              | d :: rest2 =>
                  if d == Char.ofNat 125 then some (JsValue.obj [], rest2)
                  else
                    match parseJsonObjectItems fuel (skipWs rest) [] with
                    | some (kvs, r) => some (JsValue.obj kvs, r)
                    | none => none
              | [] => none
            else parseJsonNumber l
        | [] => none

/-- Parse the comma-separated items of a non-empty array, then the
closing bracket. -/
def parseJsonArrayItems : Nat → List Char → List JsValue →
    Option (List JsValue × List Char)
  | 0, _, _ => none
  | fuel + 1, l, acc =>
      match parseJsonValue fuel l with
      | none => none
      | some (v, r) =>
          match skipWs r with
          | c :: rest =>
              if c == ']' then some ((v :: acc).reverse, rest)
              else if c == ',' then parseJsonArrayItems fuel rest (v :: acc)
              else none
          | [] => none

/-- Parse the comma-separated members of a non-empty object, then the
closing brace.  Duplicate keys overwrite in place, as in `JSON.parse`. -/
def parseJsonObjectItems : Nat → List Char → List (String × JsValue) →
    Option (List (String × JsValue) × List Char)
  | 0, _, _ => none
  | fuel + 1, l, acc =>
      match skipWs l with
      | c :: rest =>
          if c == '"' then
            match parseJsonStringBody (rest.length + 1) rest [] with
            | none => none
            | some (k, r) =>
                match skipWs r with
                | d :: rest2 =>
                    if d == ':' then
                      match parseJsonValue fuel rest2 with
                      | none => none
                      | some (v, r2) =>
                          match skipWs r2 with
                          | e :: rest3 =>
                              if e == Char.ofNat 125 then
                                some (recordSet acc k v, rest3)
                              else if e == ',' then
                                parseJsonObjectItems fuel rest3 (recordSet acc k v)
                              else none
                          | [] => none
                    else none
                | [] => none
          else none
      | [] => none

end

/-- `JSON.parse(s)`: parse a single JSON text; trailing garbage is a
syntax error.  `none` models the thrown `SyntaxError`. -/
def jsonParse (s : String) : Option JsValue :=
  match parseJsonValue (2 * s.length + 8) s.toList with
  | some (v, rest) => if (skipWs rest).isEmpty then some v else none
  | none => none

/-- Decimal printing of the exact number `m / 10^e` (trailing zeros were
removed at parse time): an integer prints as such, otherwise integer part,
point, and `e` fraction digits. -/
def decimalToString (m : Int) (e : Nat) : String :=
  if e == 0 then toString m
  else
    let n := m.natAbs
    let ip := n / 10 ^ e
    let fp := n % 10 ^ e
    let fpDigits := toString fp
    let fpPadded :=
      String.mk (List.replicate (e - fpDigits.length) '0') ++ fpDigits
    (if m < 0 then "-" else "") ++ toString ip ++ "." ++ fpPadded

/-- Ample fuel for printing a value parsed from a string of this length
(the printing recursion below consumes at most a few units per parsed
node, and a parsed value has fewer nodes than the input has characters). -/
def printFuel (s : String) : Nat := 4 * s.length + 16

mutual

/-- JS `String(v)` on a value `JSON.parse` can produce: `null` / booleans /
numbers print their literal form, strings pass through, arrays print as
their comma-joined elements (`Array.prototype.toString`), plain objects
print as `[object Object]`.  Fuelled so that the definition computes; the
fuel handed over by `parseJsonResponse` is always ample. -/
def jsToString : Nat → JsValue → String
  | 0, _ => ""
  | fuel + 1, v =>
      match v with
      | JsValue.nul => "null"
      | JsValue.bool true => "true"
      | JsValue.bool false => "false"
      | JsValue.num m e => decimalToString m e
      | JsValue.str s => s
      | JsValue.arr xs => jsArrayJoin fuel xs
      | JsValue.obj _ => "[object Object]"

/-- `Array.prototype.join(",")`: elements separated by commas. -/
def jsArrayJoin : Nat → List JsValue → String
  | 0, _ => ""
  | fuel + 1, l =>
      match l with
      | [] => ""
      | [x] => jsArrayElemString fuel x
      | x :: y :: rest =>
          jsArrayElemString fuel x ++ "," ++ jsArrayJoin fuel (y :: rest)

/-- One joined array element: a `null` element contributes the empty
string, anything else its `String(...)` form. -/
def jsArrayElemString : Nat → JsValue → String
  | 0, _ => ""
  | fuel + 1, v =>
      match v with
      | JsValue.nul => ""
      | v' => jsToString fuel v'

end



/-- `Object.entries(v)` as used on the result of `JSON.parse`: `none`
models the `TypeError` thrown on `null`; an object yields its fields, an
array its indexed elements, a string its indexed characters, any other
primitive an empty list. -/
def jsEntries : JsValue → Option (List (String × JsValue))
  | JsValue.nul => none
  | JsValue.obj kvs => some kvs
  | JsValue.arr xs =>
      some (xs.enum.map (fun p => (toString p.1, p.2)))
  | JsValue.str s =>
      some (s.toList.enum.map
        (fun p => (toString p.1, JsValue.str (String.mk [p.2]))))
  | _ => some []

/-- The seven characters of a tagged fence marker. -/
def fenceJsonChars : List Char := "```json".toList

/-- The three characters of a bare fence marker. -/
def fenceChars : List Char := "```".toList

/-- `.replace(/```json\n?/g, "")`: delete every occurrence of the tagged
fence marker together with one following newline when present (fuelled so
the definition computes; `cleanResponse` supplies ample fuel). -/
def stripJsonFence : Nat → List Char → List Char
  | 0, l => l
  | fuel + 1, l =>
      match l with
      | a :: b :: c :: d :: e :: f :: g :: rest =>
          if [a, b, c, d, e, f, g] == fenceJsonChars then
            match rest with
            | n :: rest2 =>
                if n == '\n' then stripJsonFence fuel rest2
                else stripJsonFence fuel (n :: rest2)
            | [] => []
          else a :: stripJsonFence fuel (b :: c :: d :: e :: f :: g :: rest)
      | l' => l'

/-- `.replace(/```\n?/g, "")`: delete every bare fence marker together
with one following newline when present. -/
def stripBareFence : Nat → List Char → List Char
  | 0, l => l
  | fuel + 1, l =>
      match l with
      | a :: b :: c :: rest =>
          if [a, b, c] == fenceChars then
            match rest with
            | n :: rest2 =>
                if n == '\n' then stripBareFence fuel rest2
                else stripBareFence fuel (n :: rest2)
            | [] => []
          else a :: stripBareFence fuel (b :: c :: rest)
      | l' => l'

/-- The cleanup of `R`: trim, remove tagged then bare fence markers,
trim again. -/
def cleanResponse (aiResponse : String) : String :=
  let l := (jsTrim aiResponse).toList
  jsTrim (String.mk (stripBareFence (l.length + 1)
    (stripJsonFence (l.length + 1) l)))

/-- `result[fieldName] = String(fieldValue)` over the entries, building
the returned record. -/
def coerceEntries (fuel : Nat) (es : List (String × JsValue)) :
    List (String × String) :=
  es.map (fun p => (p.1, jsToString fuel p.2))

/-- `R(o)` in `src/unnamed/part_008` (exported as `parseJsonResponse`, also
`src/lib/utils/prompts.ts` lines 230-256): clean the response, `JSON.parse`
it, coerce every entry of the result to a string; any thrown error
(`SyntaxError` from parsing, `TypeError` from `Object.entries(null)`)
is caught, logged, and the empty record returned. -/
def parseJsonResponse (aiResponse : String) : List (String × String) :=
  let cleaned := cleanResponse aiResponse
  match jsonParse cleaned with
  | none => []
  | some v =>
      match jsEntries v with
      | none => []
      | some es => coerceEntries (printFuel cleaned) es

/-- Record lookup, `p[c]` on the parsed record. -/
def recordGet (kvs : List (String × String)) (k : String) : Option String :=
  match kvs with
  | [] => none
  | (k', v) :: rest => if k' == k then some v else recordGet rest k

/-!
## Field descriptors, the extraction prompt and the orchestrator

`analyzeField` (`m` in `src/unnamed/part_008`) produces one descriptor per
control; `k` groups radios.  The descriptor fields are modelled as strings
with `""` for an absent / empty attribute, matching JS falsiness of both
`undefined` and `""` everywhere the code tests them.
-/

/-- JS `a || b` on strings: `a` when truthy (non-empty), else `b`. -/
def jsOr (a b : String) : String := if a == "" then b else a

/-- One option of a radio-group descriptor (`value` plus resolved label). -/
structure RadioOpt where
  value : String
  label : String
deriving Repr, DecidableEq

/-- The field descriptor (`FieldInfo` in `src/lib/core/types.ts`): the
element reference plus the metadata `analyzeField` collects.  `options` is
set only on radio-group descriptors (`k` in `src/unnamed/part_008`). -/
structure FieldInfo where
  element : Elem
  ty : String
  name : String
  label : String
  placeholder : String
  hint : String
  options : Option (List RadioOpt)
deriving Repr, DecidableEq

/-- `P(o)` in `src/unnamed/part_008` (exported as `getFieldIdentifier`):
`o.name || o.label || o.placeholder || "unknown"`. -/
def getFieldIdentifier (f : FieldInfo) : String :=
  jsOr f.name (jsOr f.label (jsOr f.placeholder "unknown"))

/-- `xs.join(", ")`. -/
def joinCommaSpace : List String → String
  | [] => ""
  | [x] => x
  | x :: y :: rest => x ++ ", " ++ joinCommaSpace (y :: rest)

/-- The per-field line of `I` (`buildParsePrompt` in
`src/lib/utils/prompts.ts` lines 74-98): identifier, type, optional label /
placeholder / options / format hint / author hint. -/
def fieldLine (f : FieldInfo) : String :=
  let fieldName := jsOr f.name (jsOr f.label (jsOr f.placeholder "unknown"))
  let base := "- " ++ fieldName ++ " (type: " ++ f.ty ++ ")"
  let withLabel :=
    if f.label == "" then base
    else base ++ " - Label: \"" ++ f.label ++ "\""
  let withPlaceholder :=
    if f.placeholder == "" then withLabel
    else withLabel ++ " - Placeholder: \"" ++ f.placeholder ++ "\""
  let withSelect :=
    match f.element with
    | Elem.selectEl opts _ =>
        if f.ty == "select" then
          let names := (opts.map (fun o => jsTrim o.text)).filter
            (fun s => s != "")
          withPlaceholder ++ " - Options: [" ++ joinCommaSpace names ++ "]"
        else withPlaceholder
    | _ => withPlaceholder
  let withRadio :=
    match f.options with
    | some os =>
        if f.ty == "radio" then
          withSelect ++ " - Options: [" ++
            joinCommaSpace (os.map (fun o => jsOr o.label o.value)) ++ "]"
        else withSelect
    | none => withSelect
  let withFormat :=
    if f.ty == "date" then withRadio ++ " - Format: YYYY-MM-DD"
    else if f.ty == "datetime-local" then
      withRadio ++ " - Format: YYYY-MM-DDTHH:MM"
    else if f.ty == "time" then withRadio ++ " - Format: HH:MM"
    else withRadio
  let withHint :=
    if f.hint == "" then withFormat
    else withFormat ++ " - Additional info: " ++ f.hint
  withHint ++ "\n"

/-- The fixed instruction block `I` appends after the source text
(character-exact image of the template literal). -/
def parsePromptFooter : String :=
  "\n\n\n    Extract the relevant information and return it as a JSON " ++
  "object where keys match the field names exactly.\n    \n\n    Only " ++
  "include fields where you found relevant data.\n    \n\n    For " ++
  "checkbox fields, return \"true\" if the text indicates the option " ++
  "should be checked, \"false\" or omit otherwise.\n    \n\n    For " ++
  "radio fields, return the value (preferred) or label of the selected " ++
  "option.\n    \n\n    Return ONLY the JSON object, no explanations or " ++
  "markdown formatting.\n  "

/-- `I(o, e)` in `src/unnamed/part_008` (`buildParsePrompt`): header, one
line per field, the verbatim source text, fixed instructions. -/
def buildParsePrompt (clientFieldInfos : List FieldInfo)
    (unstructuredText : String) : String :=
  "Extract structured data from the following unstructured text and " ++
  "match it to the form fields.\n\nForm fields:\n" ++
  String.join (clientFieldInfos.map fieldLine) ++
  "\nUnstructured text:\n" ++ unstructuredText ++ parsePromptFooter

/-- The allow-list filter of `parseAndFillForm`
(`src/lib/core/aiFormFill.ts` lines 123-129): when `selectedFields` is
set, keep the fields whose `name` is truthy and contained in it; when it
is absent, keep everything. -/
def filterTargets (selectedFields : Option (List String))
    (fields : List FieldInfo) : List FieldInfo :=
  match selectedFields with
  | some sel => fields.filter (fun f => jsTruthy f.name && sel.contains f.name)
  | none => fields

/-- Outcome of the single `provider.chat` call: a thrown error, or a
response whose `content` is `null` or a string. -/
inductive ChatOutcome where
  | errored
  | ok (content : Option String)
deriving Repr, DecidableEq

/-- The write decision of the final loop of `parseAndFillForm`
(`src/lib/core/aiFormFill.ts` lines 184-197): for a field of the filtered
list, `setFieldValue` is invoked exactly when the identifier is truthy and
`extractedData[fieldName]` is truthy (present with a non-empty value). -/
def fieldWrite (extractedData : List (String × String)) (f : FieldInfo) :
    Option (FieldInfo × String) :=
  let fieldName := getFieldIdentifier f
  if jsTruthy fieldName then
    match recordGet extractedData fieldName with
    | some v => if jsTruthy v then some (f, v) else none
    | none => none
  else none

/-- `parseAndFillForm(formElement, unstructuredText)` of class `b` in
`src/unnamed/part_008` / `src/lib/core/aiFormFill.ts` lines 112-198,
modelled as the list of `setFieldValue(element, value)` calls it performs:
filter the detected fields by the allow-list, issue the provider call; a
thrown call or `null`/empty content means no field is written (the
function logs and returns normally); otherwise parse the content and write
each filtered field whose identifier has a truthy entry. -/
def parseAndFillFormWrites (fields : List FieldInfo)
    (selectedFields : Option (List String)) (outcome : ChatOutcome) :
    List (FieldInfo × String) :=
  let filtered := filterTargets selectedFields fields
  match outcome with
  | ChatOutcome.errored => []
  | ChatOutcome.ok none => []
  | ChatOutcome.ok (some content) =>
      if content == "" then []
      else filtered.filterMap (fieldWrite (parseJsonResponse content))

/-- The extraction prompt `parseAndFillForm` sends: built from the
filtered field list only. -/
def parseAndFillFormPrompt (fields : List FieldInfo)
    (selectedFields : Option (List String)) (unstructuredText : String) :
    String :=
  buildParsePrompt (filterTargets selectedFields fields) unstructuredText

/-- `setFields(fields)` (`src/lib/core/aiFormFill.ts` lines 228-231):
`this.selectedFields = fields || undefined`.  A JS array -- the empty
array included -- is truthy, so `some xs` is stored as given and only
`undefined`/`null` becomes `undefined`. -/
def setFields (fields : Option (List String)) : Option (List String) :=
  match fields with
  | none => none
  | some xs => some xs

/-- The three provider names the factory map of
`constructProviderWithName` knows. -/
inductive ProviderName where
  | ollama
  | openai
  | perplexity
deriving Repr, DecidableEq

/-- What a constructor call can throw: a runtime `TypeError` (invoking a
value that is not a function; its message is engine-supplied, the
repository constructs none) or an `Error` explicitly thrown by repository
code with the given message. -/
inductive JsThrown where
  | typeError
  | error (msg : String)
deriving Repr, DecidableEq

/-- `constructProviderWithName(providerName, options)` in
`src/lib/core/aiFormFill.ts` lines 278-297 (also lines 671-685 of
`src/unnamed/part_008`): index the three-entry factory object with the
given name and call the result.  There is no validity check: an unknown
name indexes to `undefined` and the call throws a `TypeError`. -/
def constructProviderWithName (providerName : String) :
    Except JsThrown ProviderName :=
  if providerName == "ollama" then Except.ok ProviderName.ollama
  else if providerName == "openai" then Except.ok ProviderName.openai
  else if providerName == "perplexity" then Except.ok ProviderName.perplexity
  else Except.error JsThrown.typeError

namespace Old

/-- The older `AIFormFill` constructor (`src/unnamed/part_016` lines
50-84, second module of `src/unnamed/part_008`): lowercase the name, look
it up, and throw an `Error` enumerating `Object.keys(providerFactories)`
when the lookup fails. -/
def constructProvider (providerName : String) : Except JsThrown ProviderName :=
  let lower := jsToLower providerName
  if lower == "ollama" then Except.ok ProviderName.ollama
  else if lower == "openai" then Except.ok ProviderName.openai
  else if lower == "perplexity" then Except.ok ProviderName.perplexity
  else
    Except.error (JsThrown.error
      ("Unsupported provider: " ++ providerName ++
        "\nAvailable providers: ollama, openai, perplexity"))

end Old

/-!
## Claim theorems
-/

/-- C1 (corrected), counterexample: the claim quantifies the sentinel
no-op over both cited writers and over all nine sentinel strings including
"missing", but the writer of `src/lib/utils/fieldUtils.ts` does not list
"missing": applied to a text input holding "x", it overwrites the value
with "missing". -/
theorem C1_counterexample :
    Lib.setFieldValue (Elem.inputEl "text" "x" false) "missing" =
      Elem.inputEl "text" "missing" false ∧
    Lib.setFieldValue (Elem.inputEl "text" "x" false) "missing" ≠
      Elem.inputEl "text" "x" false := by
  decide

/-- C1 (corrected, amended): for every form control and every raw string
whose trimmed lowercased form is a sentinel, the current-generation writer
(`g` in `src/unnamed/part_008`, nine sentinels including "missing") leaves
the element exactly as it was; the older writer of
`src/lib/utils/fieldUtils.ts` guarantees the same for its eight sentinels,
which do not include "missing". -/
theorem C1_sentinel_noop (dp : String → String → Option String)
    (el : Elem) (raw : String) :
    (Dist.isNoValue (jsToLower (jsTrim raw)) = true →
      Dist.setFieldValue dp el raw = el) ∧
    (Lib.NO_VALUES.contains (jsToLower (jsTrim raw)) = true →
      Lib.setFieldValue el raw = el) := by
  constructor
  · intro h
    simp [Dist.setFieldValue, h]
  · intro h
    simp only [Lib.setFieldValue, h, if_true]

/-- Witness for C1: the padded upper-case sentinel " N/A " leaves a
checked checkbox and a filled text input untouched under both writers. -/
theorem C1_sentinel_noop_witness :
    Dist.setFieldValue (fun _ _ => none) (Elem.checkboxEl true) " N/A " =
      Elem.checkboxEl true ∧
    Lib.setFieldValue (Elem.inputEl "text" "kept" false) " N/A " =
      Elem.inputEl "text" "kept" false :=
  ⟨(C1_sentinel_noop (fun _ _ => none) (Elem.checkboxEl true) " N/A ").1
      (by decide),
   (C1_sentinel_noop (fun _ _ => none) (Elem.inputEl "text" "kept" false)
      " N/A ").2 (by decide)⟩

/-- C2 (confirmed): when the provider call throws, or returns content that
is null or the empty string, `parseAndFillForm` performs no field write at
all and returns normally (the model is a total function: the thrown error
is caught inside, so nothing propagates to the caller). -/
theorem C2_failed_call_writes_nothing (fields : List FieldInfo)
    (selectedFields : Option (List String)) (outcome : ChatOutcome)
    (h : outcome = ChatOutcome.errored ∨ outcome = ChatOutcome.ok none ∨
         outcome = ChatOutcome.ok (some "")) :
    parseAndFillFormWrites fields selectedFields outcome = [] := by
  rcases h with h | h | h <;> subst h <;>
    simp [parseAndFillFormWrites]

/-- Witness for C2: a concrete two-field form with a throwing provider,
a null response and an empty response -- no writes in each case. -/
theorem C2_failed_call_writes_nothing_witness :
    parseAndFillFormWrites
      [⟨Elem.inputEl "text" "a" false, "text", "firstName", "", "", "", none⟩,
       ⟨Elem.textareaEl "b", "textarea", "remarks", "", "", "", none⟩]
      none ChatOutcome.errored = [] ∧
    parseAndFillFormWrites [] none (ChatOutcome.ok none) = [] ∧
    parseAndFillFormWrites [] none (ChatOutcome.ok (some "")) = [] :=
  ⟨C2_failed_call_writes_nothing _ none ChatOutcome.errored (Or.inl rfl),
   C2_failed_call_writes_nothing [] none (ChatOutcome.ok none)
     (Or.inr (Or.inl rfl)),
   C2_failed_call_writes_nothing [] none (ChatOutcome.ok (some ""))
     (Or.inr (Or.inr rfl))⟩

/-- C9 (corrected), counterexample: constructing with the unknown provider
name "anthropic" through the cited `constructProviderWithName`
(`src/lib/core/aiFormFill.ts` lines 278-297) throws the runtime
`TypeError` of calling an undefined factory -- not an `Error` carrying a
repository-built message, so no message enumerating the valid provider
names is thrown. -/
theorem C9_counterexample :
    constructProviderWithName "anthropic" = Except.error JsThrown.typeError ∧
    ∀ msg, constructProviderWithName "anthropic" ≠
      Except.error (JsThrown.error msg) := by
  constructor
  · rfl
  · intro msg h
    simp [constructProviderWithName] at h

/-- C9 (corrected, amended): an unknown provider name still fails
synchronously at construction time, but in the current code the failure is
a `TypeError` from invoking a missing factory, with no enumerating
message; the older `AIFormFill` constructor (`src/unnamed/part_016`) is
the one that throws an `Error` whose message enumerates
ollama, openai, perplexity. -/
theorem C9_unknown_provider (name : String)
    (h1 : name ≠ "ollama") (h2 : name ≠ "openai") (h3 : name ≠ "perplexity")
    (h4 : jsToLower name ≠ "ollama") (h5 : jsToLower name ≠ "openai")
    (h6 : jsToLower name ≠ "perplexity") :
    constructProviderWithName name = Except.error JsThrown.typeError ∧
    Old.constructProvider name = Except.error (JsThrown.error
      ("Unsupported provider: " ++ name ++
        "\nAvailable providers: ollama, openai, perplexity")) := by
  constructor
  · simp [constructProviderWithName, h1, h2, h3]
  · simp [Old.constructProvider, h4, h5, h6]

/-- Witness for C9: the amended behaviour at the concrete name
"anthropic". -/
theorem C9_unknown_provider_witness :
    constructProviderWithName "anthropic" = Except.error JsThrown.typeError ∧
    Old.constructProvider "anthropic" = Except.error (JsThrown.error
      ("Unsupported provider: anthropic" ++
        "\nAvailable providers: ollama, openai, perplexity")) :=
  C9_unknown_provider "anthropic" (by decide) (by decide) (by decide)
    (by decide) (by decide) (by decide)

/-- C10 (confirmed): an empty allow-list is stored as the empty list (a JS
array is truthy, so `fields || undefined` keeps it), every field is
filtered out of scope, the extraction prompt is built from no fields, and
no field is ever written; only an absent list keeps all fields in
scope. -/
theorem C10_empty_allow_list :
    setFields (some []) = some [] ∧
    setFields none = none ∧
    (∀ fields, filterTargets (some []) fields = []) ∧
    (∀ fields outcome,
      parseAndFillFormWrites fields (some []) outcome = []) ∧
    (∀ fields text,
      parseAndFillFormPrompt fields (some []) text = buildParsePrompt [] text) ∧
    (∀ fields, filterTargets none fields = fields) := by
  refine ⟨rfl, rfl, ?_, ?_, ?_, ?_⟩
  · intro fields
    induction fields with
    | nil => rfl
    | cons f rest ih => simp [filterTargets] at ih ⊢
  · intro fields outcome
    have hfilter : filterTargets (some []) fields = [] := by
      induction fields with
      | nil => rfl
      | cons f rest ih => simp [filterTargets] at ih ⊢
    cases outcome with
    | errored => simp [parseAndFillFormWrites]
    | ok content =>
        cases content with
        | none => simp [parseAndFillFormWrites]
        | some c =>
            by_cases hc : c = ""
            · simp [parseAndFillFormWrites, hc]
            · simp [parseAndFillFormWrites, hc, hfilter]
  · intro fields text
    have hfilter : filterTargets (some []) fields = [] := by
      induction fields with
      | nil => rfl
      | cons f rest ih => simp [filterTargets] at ih ⊢
    simp [parseAndFillFormPrompt, hfilter]
  · intro fields
    rfl

/-- C4 (confirmed): on a select element with a non-sentinel value, the
first option (in document order) whose lowercased value or display text
equals the normalized input is selected; only when no exact match exists
is the first substring match (either direction, value or text) selected;
with no match at all the select keeps its value.  Exact matches always
take precedence because the substring search runs only when the exact
search returned nothing. -/
theorem C4_select_matching (dp : String → String → Option String)
    (opts : List SelectOpt) (cur raw : String)
    (hs : Dist.isNoValue (jsToLower (jsTrim raw)) = false) :
    (∀ o, opts.find? (Dist.selectExact (jsToLower (jsTrim raw))) = some o →
      Dist.setFieldValue dp (Elem.selectEl opts cur) raw =
        Elem.selectEl opts o.value) ∧
    (opts.find? (Dist.selectExact (jsToLower (jsTrim raw))) = none →
      ∀ o, opts.find? (Dist.selectSub (jsToLower (jsTrim raw))) = some o →
        Dist.setFieldValue dp (Elem.selectEl opts cur) raw =
          Elem.selectEl opts o.value) ∧
    (opts.find? (Dist.selectExact (jsToLower (jsTrim raw))) = none →
      opts.find? (Dist.selectSub (jsToLower (jsTrim raw))) = none →
        Dist.setFieldValue dp (Elem.selectEl opts cur) raw =
          Elem.selectEl opts cur) := by
  refine ⟨?_, ?_, ?_⟩
  · intro o hfind
    simp [Dist.setFieldValue, hs, Dist.setSelectValue, Dist.selectFind, hfind]
  · intro hnone o hfind
    simp [Dist.setFieldValue, hs, Dist.setSelectValue, Dist.selectFind,
      hnone, hfind]
  · intro hnone hsub
    simp [Dist.setFieldValue, hs, Dist.setSelectValue, Dist.selectFind,
      hnone, hsub]

/-- Witness for C4: the spec's own P3 vectors over the options
de / Germany and us / United States: "us" picks us by exact value,
"Germany" picks de by exact text, "united states" picks us
case-insensitively, and "germ" falls back to the substring match de. -/
theorem C4_select_matching_witness :
    Dist.setFieldValue (fun _ _ => none)
      (Elem.selectEl [⟨"de", "Germany"⟩, ⟨"us", "United States"⟩] "x") "us" =
      Elem.selectEl [⟨"de", "Germany"⟩, ⟨"us", "United States"⟩] "us" ∧
    Dist.setFieldValue (fun _ _ => none)
      (Elem.selectEl [⟨"de", "Germany"⟩, ⟨"us", "United States"⟩] "x")
      "Germany" =
      Elem.selectEl [⟨"de", "Germany"⟩, ⟨"us", "United States"⟩] "de" ∧
    Dist.setFieldValue (fun _ _ => none)
      (Elem.selectEl [⟨"de", "Germany"⟩, ⟨"us", "United States"⟩] "x")
      "united states" =
      Elem.selectEl [⟨"de", "Germany"⟩, ⟨"us", "United States"⟩] "us" ∧
    Dist.setFieldValue (fun _ _ => none)
      (Elem.selectEl [⟨"de", "Germany"⟩, ⟨"us", "United States"⟩] "x")
      "germ" =
      Elem.selectEl [⟨"de", "Germany"⟩, ⟨"us", "United States"⟩] "de" :=
  ⟨(C4_select_matching (fun _ _ => none) _ "x" "us" (by decide)).1
      ⟨"us", "United States"⟩ (by decide),
   (C4_select_matching (fun _ _ => none) _ "x" "Germany" (by decide)).1
      ⟨"de", "Germany"⟩ (by decide),
   (C4_select_matching (fun _ _ => none) _ "x" "united states"
      (by decide)).1 ⟨"us", "United States"⟩ (by decide),
   (C4_select_matching (fun _ _ => none) _ "x" "germ"
      (by decide)).2.1 (by decide) ⟨"de", "Germany"⟩ (by decide)⟩

/-- C5 (corrected), counterexample: the claim gives exact radio matches
precedence over substring matches, but the code checks each radio once
with a combined exact-or-substring disjunction: with the group
foobar, foo and input "foo", the first radio foobar matches by substring
and is checked, even though the second radio is the unique exact match
the claim would select. -/
theorem C5_counterexample :
    Dist.setFieldValue (fun _ _ => none)
      (Elem.radioEl true ""
        [⟨"foobar", "Foobar", false⟩, ⟨"foo", "Foo", false⟩]) "foo" =
      Elem.radioEl true ""
        [⟨"foobar", "Foobar", true⟩, ⟨"foo", "Foo", false⟩] ∧
    Elem.radioEl true ""
        [⟨"foobar", "Foobar", true⟩, ⟨"foo", "Foo", false⟩] ≠
      Elem.radioEl true ""
        [⟨"foobar", "Foobar", false⟩, ⟨"foo", "Foo", true⟩] := by
  decide

/-- C5 (corrected, amended): for a radio input with an enclosing form and
a name and a non-sentinel value, the code walks the group once in
document order and checks the first radio whose lowercased value or
resolved label matches the normalized input exactly OR by substring in
either direction (no precedence between the two); radios before it and
after it keep their checked state, and when no radio matches the whole
group is left unchanged.  Without an enclosing form or name nothing
changes. -/
theorem C5_radio_first_combined_match (dp : String → String → Option String)
    (v raw : String) (group pre post : List Radio) (r : Radio)
    (hs : Dist.isNoValue (jsToLower (jsTrim raw)) = false) :
    (group = pre ++ r :: post →
      (∀ r' ∈ pre, Dist.radioMatches (jsToLower (jsTrim raw)) r' = false) →
      Dist.radioMatches (jsToLower (jsTrim raw)) r = true →
      Dist.setFieldValue dp (Elem.radioEl true v group) raw =
        Elem.radioEl true v (pre ++ { r with checked := true } :: post)) ∧
    ((∀ r' ∈ group, Dist.radioMatches (jsToLower (jsTrim raw)) r' = false) →
      Dist.setFieldValue dp (Elem.radioEl true v group) raw =
        Elem.radioEl true v group) ∧
    Dist.setFieldValue dp (Elem.radioEl false v group) raw =
      Elem.radioEl false v group := by
  refine ⟨?_, ?_, ?_⟩
  · intro hgroup hpre hr
    subst hgroup
    simp only [Dist.setFieldValue, hs, Bool.false_eq_true, if_false, if_true]
    congr 1
    induction pre with
    | nil => simp [Dist.setRadioGroup, hr]
    | cons p rest ih =>
        have hp := hpre p (by simp)
        simp only [List.cons_append, Dist.setRadioGroup, hp,
          Bool.false_eq_true, if_false, List.cons.injEq, true_and]
        exact ih (fun r' hr' => hpre r' (by simp [hr']))
  · intro hnone
    simp only [Dist.setFieldValue, hs, Bool.false_eq_true, if_false, if_true]
    congr 1
    induction group with
    | nil => rfl
    | cons p rest ih =>
        have hp := hnone p (by simp)
        simp only [Dist.setRadioGroup, hp, Bool.false_eq_true, if_false,
          List.cons.injEq, true_and]
        exact ih (fun r' hr' => hnone r' (by simp [hr']))
  · simp [Dist.setFieldValue, hs]

/-- Witness for C5: with the group foobar, foo and raw input " FOO ",
the first (substring) match foobar is checked and foo stays unchecked;
with a group a, b and input "zz" nothing matches and nothing changes;
without an enclosing form nothing changes. -/
theorem C5_radio_first_combined_match_witness :
    Dist.setFieldValue (fun _ _ => none)
      (Elem.radioEl true ""
        [⟨"foobar", "Foobar", false⟩, ⟨"foo", "Foo", false⟩]) " FOO " =
      Elem.radioEl true ""
        [⟨"foobar", "Foobar", true⟩, ⟨"foo", "Foo", false⟩] ∧
    Dist.setFieldValue (fun _ _ => none)
      (Elem.radioEl true "" [⟨"aq", "Aq", false⟩, ⟨"bq", "Bq", true⟩]) "zz" =
      Elem.radioEl true "" [⟨"aq", "Aq", false⟩, ⟨"bq", "Bq", true⟩] ∧
    Dist.setFieldValue (fun _ _ => none)
      (Elem.radioEl false "" [⟨"zz", "Zz", false⟩]) "zz" =
      Elem.radioEl false "" [⟨"zz", "Zz", false⟩] :=
  ⟨(C5_radio_first_combined_match (fun _ _ => none) "" " FOO "
      [⟨"foobar", "Foobar", false⟩, ⟨"foo", "Foo", false⟩] []
      [⟨"foo", "Foo", false⟩] ⟨"foobar", "Foobar", false⟩ (by decide)).1
      rfl (by intro r' hr'; cases hr') (by decide),
   (C5_radio_first_combined_match (fun _ _ => none) "" "zz"
      [⟨"aq", "Aq", false⟩, ⟨"bq", "Bq", true⟩] [] [] ⟨"", "", false⟩
      (by decide)).2.1 (by decide),
   (C5_radio_first_combined_match (fun _ _ => none) "" "zz"
      [⟨"zz", "Zz", false⟩] [] [] ⟨"", "", false⟩ (by decide)).2.2⟩

/-- C7 (confirmed): for a time-kind control the normalization matches the
`H:MM[:SS][ am|pm]` pattern anywhere in the (trimmed) string and yields
`HH:MM` with the hour in 24-hour form -- a pm designator adds 12 to hours
below 12, `12 am` becomes `00`, `12 pm` stays `12` -- in particular
"3:45 pm" yields "15:45"; when the pattern does not occur the result is
null and the control is left unchanged. -/
theorem C7_time_normalization (dp : String → String → Option String) :
    (∀ s v, Dist.findTimeMatch (jsTrim s).toList = none →
      Dist.normalizeDateValue dp s "time" = none ∧
      Dist.setFieldValue dp (Elem.dateEl "time" v) s = Elem.dateEl "time" v) ∧
    (∀ s m, Dist.findTimeMatch (jsTrim s).toList = some m →
      Dist.normalizeDateValue dp s "time" =
        some (Dist.pad2 (Dist.to24Hour m.hour m.ampm) ++ ":" ++ m.minutes)) ∧
    (∀ h, h < 12 → Dist.to24Hour h (some AmPm.pm) = h + 12) ∧
    Dist.to24Hour 12 (some AmPm.am) = 0 ∧
    Dist.to24Hour 12 (some AmPm.pm) = 12 ∧
    Dist.normalizeDateValue dp "3:45 pm" "time" = some "15:45" := by
  refine ⟨?_, ?_, ?_, by decide, by decide, ?_⟩
  · intro s v hnone
    have hnone' : Dist.findTimeMatch (jsTrim s).data = none := hnone
    have hnorm : Dist.normalizeDateValue dp s "time" = none := by
      simp [Dist.normalizeDateValue, Dist.normalizeTimeValue, hnone']
    refine ⟨hnorm, ?_⟩
    by_cases hsent : Dist.isNoValue (jsToLower (jsTrim s)) = true
    · simp [Dist.setFieldValue, hsent]
    · simp only [Bool.not_eq_true] at hsent
      simp [Dist.setFieldValue, hsent, Dist.setDateValue, hnorm]
  · intro s m hsome
    have hsome' : Dist.findTimeMatch (jsTrim s).data = some m := hsome
    simp [Dist.normalizeDateValue, Dist.normalizeTimeValue, hsome']
  · intro h hlt
    simp [Dist.to24Hour, hlt]
  · rfl

/-- Witness for C7: the unparseable string "whenever" leaves a time input
holding "09:00" unchanged, and "half past 3:45 pm, roughly" matched
inside a longer string converts to "15:45". -/
theorem C7_time_normalization_witness :
    (Dist.normalizeDateValue (fun _ _ => none) "whenever" "time" = none ∧
      Dist.setFieldValue (fun _ _ => none) (Elem.dateEl "time" "09:00")
        "whenever" = Elem.dateEl "time" "09:00") ∧
    Dist.normalizeDateValue (fun _ _ => none)
      "half past 3:45 pm, roughly" "time" = some "15:45" :=
  ⟨(C7_time_normalization (fun _ _ => none)).1 "whenever" "09:00" (by rfl),
   ((C7_time_normalization (fun _ _ => none)).2.1
      "half past 3:45 pm, roughly" ⟨3, "45", some AmPm.pm⟩ (by rfl)).trans
      (by rfl)⟩

/-- A descriptor whose name, label and placeholder are all empty (a bare
unnamed text input with no label). -/
def c8field : FieldInfo :=
  ⟨Elem.inputEl "text" "" false, "text", "", "", "", "", none⟩

/-- C8 (corrected), counterexample: a field with no name, label or
placeholder gets the fallback identifier "unknown", so a parsed response
carrying the key "unknown" DOES write into it -- here the value "hello"
is written into the identifier-less field, contradicting the claim that
such fields can never receive a value. -/
theorem C8_counterexample :
    c8field.name = "" ∧ c8field.label = "" ∧ c8field.placeholder = "" ∧
    parseAndFillFormWrites [c8field] none
      (ChatOutcome.ok (some "\x7b\"unknown\":\"hello\"\x7d")) =
      [(c8field, "hello")] := by
  decide

/-- C8 (corrected, amended): a field whose name, label and placeholder
are all empty is addressed under the fallback identifier "unknown": it
receives a value exactly when the parsed mapping holds a non-empty value
under the literal key "unknown"; it can never be selected by a name-based
allow-list (its empty name fails the filter). -/
theorem C8_unidentified_fields (f : FieldInfo)
    (hn : f.name = "") (hl : f.label = "") (hp : f.placeholder = "") :
    getFieldIdentifier f = "unknown" ∧
    (∀ data v, fieldWrite data f = some (f, v) ↔
      (recordGet data "unknown" = some v ∧ v ≠ "")) ∧
    (∀ sel fields, f ∉ filterTargets (some sel) fields) := by
  have hid : getFieldIdentifier f = "unknown" := by
    simp [getFieldIdentifier, jsOr, hn, hl, hp]
  refine ⟨hid, ?_, ?_⟩
  · intro data v
    constructor
    · intro hw
      simp only [fieldWrite, hid] at hw
      cases hrec : recordGet data "unknown" with
      | none => simp [hrec, jsTruthy] at hw
      | some v' =>
          simp only [hrec, jsTruthy] at hw
          by_cases hv : v' = ""
          · simp [hv] at hw
          · simp [hv] at hw
            exact ⟨by rw [hw], hw ▸ hv⟩
    · intro ⟨hrec, hv⟩
      simp [fieldWrite, hid, hrec, jsTruthy, hv]
  · intro sel fields hmem
    rw [filterTargets] at hmem
    have := List.of_mem_filter hmem
    simp [jsTruthy, hn] at this

/-- Witness for C8: the concrete identifier-less field is addressed as
"unknown", is written from a mapping holding that key, and is excluded by
any allow-list. -/
theorem C8_unidentified_fields_witness :
    getFieldIdentifier c8field = "unknown" ∧
    fieldWrite [("unknown", "hello")] c8field = some (c8field, "hello") ∧
    c8field ∉ filterTargets (some ["unknown"]) [c8field] :=
  ⟨(C8_unidentified_fields c8field rfl rfl rfl).1,
   ((C8_unidentified_fields c8field rfl rfl rfl).2.1
      [("unknown", "hello")] "hello").mpr ⟨rfl, by decide⟩,
   (C8_unidentified_fields c8field rfl rfl rfl).2.2 ["unknown"] [c8field]⟩

/-- C3 (confirmed): the response parser always terminates with a
string-to-string record; when the trimmed, fence-stripped input parses as
a JSON object it maps each key of the object to the String coercion of
the original value, and on any parse failure it returns the empty record.
In particular the fenced number-bearing response of the spec round-trips
with the number coerced to its literal text, and malformed JSON yields
the empty record without throwing. -/
theorem C3_response_parsing :
    (∀ s kvs, jsonParse (cleanResponse s) = some (JsValue.obj kvs) →
      parseJsonResponse s =
        kvs.map (fun p => (p.1, jsToString (printFuel (cleanResponse s)) p.2))) ∧
    (∀ s, jsonParse (cleanResponse s) = none → parseJsonResponse s = []) ∧
    parseJsonResponse "```json\n\x7b\"firstName\":\"Jane\",\"age\":25\x7d\n```" =
      [("firstName", "Jane"), ("age", "25")] ∧
    parseJsonResponse "\x7b invalid json \x7d" = [] := by
  refine ⟨?_, ?_, by rfl, by rfl⟩
  · intro s kvs h
    simp [parseJsonResponse, h, jsEntries, coerceEntries]
  · intro s h
    simp [parseJsonResponse, h]

/-- Witness for C3: a concrete object response with a numeric value,
parsed through the characterization at its parsed form. -/
theorem C3_response_parsing_witness :
    parseJsonResponse "\x7b\"age\": 25\x7d" = [("age", "25")] :=
  (C3_response_parsing.1 "\x7b\"age\": 25\x7d"
      [("age", JsValue.num 25 0)] (by rfl)).trans (by rfl)

/-- A successful write decision is always for the field it was asked
about. -/
theorem fieldWrite_fst (data : List (String × String)) (f : FieldInfo)
    (p : FieldInfo × String) (h : fieldWrite data f = some p) : p.1 = f := by
  simp only [fieldWrite] at h
  split at h
  · cases hrec : recordGet data (getFieldIdentifier f) with
    | none => rw [hrec] at h; cases h
    | some v =>
        rw [hrec] at h
        simp only at h
        by_cases hv : jsTruthy v = true
        · rw [if_pos hv] at h
          injection h with h'
          rw [← h']
        · rw [if_neg hv] at h
          cases h
  · cases h

set_option maxRecDepth 8000 in
/-- C6 (confirmed): with an allow-list set, exactly the fields whose name
is non-empty and occurs in the list survive the filter; the extraction
prompt is built from the filtered list only, and every performed write
targets a field whose name the allow-list contains; with no allow-list
every detected field stays in scope.  On the spec's concrete pair
firstName / lastName with allow-list firstName, the generated prompt
mentions firstName and never mentions lastName. -/
theorem C6_field_filtering :
    (∀ fields sel f, f ∈ filterTargets (some sel) fields ↔
      (f ∈ fields ∧ (jsTruthy f.name && sel.contains f.name) = true)) ∧
    (∀ fields, filterTargets none fields = fields) ∧
    (∀ fields sel outcome f v,
      (f, v) ∈ parseAndFillFormWrites fields (some sel) outcome →
        (jsTruthy f.name && sel.contains f.name) = true) ∧
    (∀ fields sel text, parseAndFillFormPrompt fields (some sel) text =
      buildParsePrompt (filterTargets (some sel) fields) text) ∧
    jsIncludes (parseAndFillFormPrompt
      [⟨Elem.inputEl "text" "" false, "text", "firstName", "", "", "", none⟩,
       ⟨Elem.inputEl "text" "" false, "text", "lastName", "", "", "", none⟩]
      (some ["firstName"]) "John Smith") "lastName" = false ∧
    jsIncludes (parseAndFillFormPrompt
      [⟨Elem.inputEl "text" "" false, "text", "firstName", "", "", "", none⟩,
       ⟨Elem.inputEl "text" "" false, "text", "lastName", "", "", "", none⟩]
      (some ["firstName"]) "John Smith") "firstName" = true := by
  refine ⟨?_, fun fields => rfl, ?_, fun fields sel text => rfl,
    by rfl, by rfl⟩
  · intro fields sel f
    exact List.mem_filter
  · intro fields sel outcome f v hmem
    have hfilters : f ∈ filterTargets (some sel) fields := by
      cases outcome with
      | errored => simp [parseAndFillFormWrites] at hmem
      | ok content =>
          cases content with
          | none => simp [parseAndFillFormWrites] at hmem
          | some c =>
              by_cases hc : c = ""
              · simp [parseAndFillFormWrites, hc] at hmem
              · have hc' : (c == "") = false := beq_eq_false_iff_ne.mpr hc
                simp only [parseAndFillFormWrites, hc', Bool.false_eq_true,
                  if_false, List.mem_filterMap] at hmem
                obtain ⟨a, ha, hwrite⟩ := hmem
                have hfst := fieldWrite_fst _ _ _ hwrite
                simp only at hfst
                rw [hfst]
                exact ha
    simp only [filterTargets] at hfilters
    exact (List.mem_filter.mp hfilters).2

/-- Witness for C6: on the spec's concrete pair, the firstName field
passes the allow-list filter and a write produced from a response does
satisfy the allow-list condition. -/
theorem C6_field_filtering_witness :
    (⟨Elem.inputEl "text" "" false, "text", "firstName", "", "", "",
      none⟩ : FieldInfo) ∈
      filterTargets (some ["firstName"])
        [⟨Elem.inputEl "text" "" false, "text", "firstName", "", "", "", none⟩,
         ⟨Elem.inputEl "text" "" false, "text", "lastName", "", "", "", none⟩] ∧
    (jsTruthy "firstName" &&
      (["firstName"] : List String).contains "firstName") = true :=
  ⟨(C6_field_filtering.1 _ _ _).mpr ⟨by decide, by decide⟩,
   C6_field_filtering.2.2.1
      [⟨Elem.inputEl "text" "" false, "text", "firstName", "", "", "", none⟩]
      ["firstName"]
      (ChatOutcome.ok (some "\x7b\"firstName\":\"Jane\"\x7d"))
      ⟨Elem.inputEl "text" "" false, "text", "firstName", "", "", "", none⟩
      "Jane" (by decide)⟩
